import Mathlib

/-!
Verification of the simple-ai-gateway request-exchange core.

This file gives a shallow embedding, in Lean 4, of the parts of the Go
source that the specification's claims are about:

* the proxy exchange engine (`internal/proxy`, second revision in the
  sources): provider selection, request preparation, the buffered
  (`handleRegularResponse`) and streaming (`handleStreamingResponse`)
  response paths, error logging (`logErrorResponse`), and the
  Content-Encoding-aware storage decode (`decompressBody`);
* the approval manager (`internal/override`): the pending-ticket table,
  `WaitForApproval`, `Approve`, `Override`;
* the SSE broadcaster (`internal/api`): the run-loop fan-out with
  non-blocking per-observer sends;
* the file-storage path resolution (`GetFile` validation and
  `GetFullPath`), together with a port of Go's `filepath.Clean` and
  `filepath.Join` for slash-separated paths.

Bodies are byte strings modelled as `List Nat`; HTTP header maps are
association lists from canonical header names to the list of values
(Go's `http.Header`).  External compression libraries (`compress/gzip`,
`andybalholm/brotli`) are not part of this repository; they enter the
model as abstract decoder functions (`Codecs`), and theorems that need
their documented round-trip behaviour take it as a hypothesis.
Side effects that carry no data relevant to the claims (console
logging, the SQLite write itself, the binary-artifact file save, SSE
event emission from the proxy) are elided; a stored response record is
modelled as the `StoreResponseInput` value handed to
`database.StoreResponse`.
-/

/-- Byte strings, the model of Go `[]byte` (and of Go `string` used as a
byte container). -/
abbrev ByteStr := List Nat

/-- Bytes of a Go string literal. -/
def strBytes (s : String) : ByteStr :=
  s.toList.map Char.toNat

/-- Go `http.Header`: an association list from a (canonical) header name
to its list of values.  Keys are assumed canonicalised, as Go's
`textproto` layer guarantees for headers read off the wire. -/
abbrev Headers := List (String × List String)

/-- Lookup in an association list keyed by strings (first entry wins,
matching Go map lookup on a table with unique keys). -/
def assocFind {α : Type} (k : String) : List (String × α) → Option α
  | [] => none
  | (k', v) :: rest => if k' == k then some v else assocFind k rest

/-- Go `http.Header.Get`: the first value stored under the key, or the
empty string when the key is absent or has no values. -/
def headerGet (h : Headers) (k : String) : String :=
  match assocFind k h with
  | some (v :: _) => v
  | _ => ""

/-- Go `http.Header.Del`: remove every entry for the key. -/
def headerDel (h : Headers) (k : String) : Headers :=
  h.filter (fun kv => kv.1 != k)

/-- Header capture used by `logRequest`, `handleRegularResponse` and
`handleStreamingResponse` before storing a record: for each key with at
least one value, keep only `values[0]`. -/
def captureHeaders (h : Headers) : List (String × String) :=
  h.filterMap (fun kv =>
    match kv.2 with
    | [] => none
    | v :: _ => some (kv.1, v))

/-- Characters Go's `strings.TrimSpace` strips, restricted to the ASCII
range (the Unicode space characters play no role in the encodings the
gateway inspects). -/
def isGoSpace (c : Char) : Bool :=
  c == ' ' || c == '\t' || c == '\n' || c == '\r' || c == Char.ofNat 11 || c == Char.ofNat 12

/-- Go `strings.TrimSpace` (ASCII fragment). -/
def goTrimSpace (s : String) : String :=
  String.mk (((s.toList.dropWhile isGoSpace).reverse.dropWhile isGoSpace).reverse)

/-- Go `strings.ToLower` (ASCII fragment). -/
def goToLower (s : String) : String :=
  String.mk (s.toList.map (fun c =>
    if 'A' ≤ c && c ≤ 'Z' then Char.ofNat (c.toNat + 32) else c))

/-- The external compression decoders used by `decompressBody`:
`compress/gzip` and `andybalholm/brotli` readers, modelled as functions
returning `none` on a decode error. -/
structure Codecs where
  gzipDecode : ByteStr → Option ByteStr
  brotliDecode : ByteStr → Option ByteStr

/-- Codecs whose decoders always fail; used to instantiate examples in
which no decoding takes place. -/
def noCodecs : Codecs :=
  { gzipDecode := fun _ => none, brotliDecode := fun _ => none }

/-- Go `decompressBody` (proxy package): normalise the Content-Encoding
value, then decode gzip or Brotli; `deflate` and `compress` are
unsupported and fall through to the original bytes, as do the empty
value, `identity`, and any unknown encoding.  `none` models the Go
error return, which only the gzip and Brotli branches can produce. -/
def decompressBody (cs : Codecs) (body : ByteStr) (contentEncoding : String) : Option ByteStr :=
  match goToLower (goTrimSpace contentEncoding) with
  | "gzip" => cs.gzipDecode body
  | "br" => cs.brotliDecode body
  | "deflate" => some body
  | "compress" => some body
  | "" => some body
  | "identity" => some body
  | _ => some body

/-- List-level "starts with" on characters. -/
def listStarts : List Char → List Char → Bool
  | [], _ => true
  | _ :: _, [] => false
  | c :: cs, d :: ds => c == d && listStarts cs ds

/-- Go `strings.HasPrefix s pre`. -/
def goStartsWith (s pre : String) : Bool :=
  listStarts pre.toList s.toList

/-- Go `strings.Contains s sub`: `sub` occurs as a contiguous substring
of `s`. -/
def goContains (s sub : String) : Bool :=
  go sub.toList s.toList
where
  go (needle : List Char) : List Char → Bool
    | [] => listStarts needle []
    | d :: ds => listStarts needle (d :: ds) || go needle ds

/-- A provider, as the proxy sees it through the `provider.Provider`
interface.  Only the operations the exchange engine consults are
modelled; `prepareRequest` returns the mutated outbound header map or
the error message (`PrepareRequest` mutating its request argument). -/
structure ProviderModel where
  name : String
  shouldProxy : String → Bool
  getProxyURL : String → String
  prepareRequest : Headers → Except String Headers
  isStreamingEndpoint : String → Bool

/-- The hop-by-hop header names both concrete providers delete in
`PrepareRequest` before dispatch. -/
def hopByHopHeaders : List String :=
  ["Connection", "Keep-Alive", "Proxy-Authenticate", "Proxy-Authorization",
   "TE", "Trailers", "Transfer-Encoding", "Upgrade"]

/-- Delete all hop-by-hop headers (the block of `req.Header.Del` calls
shared by both providers). -/
def delHopByHop (h : Headers) : Headers :=
  hopByHopHeaders.foldl headerDel h

/-- OpenAI `PrepareRequest`: require an Authorization header, then strip
hop-by-hop headers. -/
def openAIPrepare (h : Headers) : Except String Headers :=
  if headerGet h "Authorization" == "" then
    Except.error "missing Authorization header"
  else
    Except.ok (delHopByHop h)

/-- Replicate `PrepareRequest`: require an Authorization header in
Token or Bearer form, then strip hop-by-hop headers. -/
def replicatePrepare (h : Headers) : Except String Headers :=
  let authHeader := headerGet h "Authorization"
  if authHeader == "" then
    Except.error "missing Authorization header"
  else if !goStartsWith authHeader "Token " && !goStartsWith authHeader "Bearer " then
    Except.error "invalid Authorization format, expected Token or Bearer"
  else
    Except.ok (delHopByHop h)

/-- The OpenAI provider (`internal/provider/openai.go`). -/
def openAIModel : ProviderModel where
  name := "openai"
  shouldProxy := fun path => goStartsWith path "/openai/v1/"
  getProxyURL := fun path =>
    "https://api.openai.com" ++ (if goStartsWith path "/openai" then path.drop 7 else path)
  prepareRequest := openAIPrepare
  isStreamingEndpoint := fun path =>
    goContains path "/openai/v1/chat/completions" || goContains path "/openai/v1/completions"

/-- The Replicate provider (`replicate.go`). -/
def replicateModel : ProviderModel where
  name := "replicate"
  shouldProxy := fun path => goStartsWith path "/replicate/v1/"
  getProxyURL := fun path =>
    "https://api.replicate.com" ++ (if goStartsWith path "/replicate" then path.drop 10 else path)
  prepareRequest := replicatePrepare
  isStreamingEndpoint := fun path => goContains path "/replicate/v1/predictions"

/-- Go map insertion `m[k] = v`: replace the entry at `k`, or add the
key.  `proxy.New` builds its provider table with this on `p.Name()`. -/
def mapInsert {α : Type} (k : String) (v : α) : List (String × α) → List (String × α)
  | [] => [(k, v)]
  | (k', v') :: rest =>
    if k' == k then (k, v) :: rest else (k', v') :: mapInsert k v rest

/-- The name-keyed provider table `proxy.New` builds from the
registration list: a later provider replaces an earlier one with the
same name. -/
def buildProviderMap (ps : List ProviderModel) : List (String × ProviderModel) :=
  ps.foldl (fun m p => mapInsert p.name p m) []

/-- The values of the provider table: the providers `Handle` can
actually consult when it ranges over the Go map (in an order the Go
runtime does not specify). -/
def registryValues (m : List (String × ProviderModel)) : List ProviderModel :=
  m.map Prod.snd

/-- The provider-selection loop at the top of `Handle`: walk the
providers in the order the map iteration yields them (`enum`) and take
the first whose `ShouldProxy` accepts the path. -/
def selectProvider (enum : List ProviderModel) (path : String) : Option ProviderModel :=
  enum.find? (fun p => p.shouldProxy path)

/-- Registration-order first match.  This is the selection rule the
specification describes (spec section 4.1, first-match-wins over the
registration list); it is stated separately from `selectProvider` so
the two can be compared. -/
def firstRegistrationMatch (ps : List ProviderModel) (path : String) : Option ProviderModel :=
  ps.find? (fun p => p.shouldProxy path)

/-- One inbound request as the exchange engine consumes it.
`queryStream` models `r.URL.Query().Get("stream") == "true"`, and
`bodyStream` models the request body being JSON with a boolean field
`stream` set to true. -/
structure InboundRequest where
  path : String
  method : String
  headers : Headers
  body : ByteStr
  queryStream : Bool
  bodyStream : Bool

/-- `isStreamingRequest`: the provider must declare the endpoint
streaming, and either the query parameter or the body field must signal
streaming intent. -/
def isStreamingRequest (p : ProviderModel) (r : InboundRequest) : Bool :=
  p.isStreamingEndpoint r.path && (r.queryStream || r.bodyStream)

/-- A `database.StoreResponseInput`: the response record handed to
`database.StoreResponse`. -/
structure StoredResponse where
  requestID : String
  statusCode : Nat
  headers : List (String × String)
  body : ByteStr
  durationMs : Nat
  isError : Bool
  errorMessage : String
deriving DecidableEq, Repr

/-- `logErrorResponse`: the 502 error-flagged record stored when the
upstream dispatch fails. -/
def logErrorResponse (requestID : String) (msg : String) (durationMs : Nat) : StoredResponse :=
  { requestID := requestID
    statusCode := 502
    headers := []
    body := []
    durationMs := durationMs
    isError := true
    errorMessage := msg }

/-- An upstream reply on the buffered path: status, headers, and the
fully read (possibly transport-compressed) body bytes. -/
structure UpstreamResp where
  statusCode : Nat
  headers : Headers
  body : ByteStr

/-- An upstream reply on the streaming path: the body arrives as a
sequence of chunks. -/
structure StreamResp where
  statusCode : Nat
  headers : Headers
  chunks : List ByteStr

/-- Observable events of the streaming copy loop, in program order:
`append c` is the tee writing chunk `c` into the capture buffer,
`write c` is `io.Copy` writing `c` to the client, `flush` is a call to
`flusher.Flush()`. -/
inductive StreamEvent where
  | append (chunk : ByteStr)
  | write (chunk : ByteStr)
  | flush
deriving DecidableEq, Repr

/-- Event trace of `io.Copy(w, io.TeeReader(resp.Body, &buffered))`
followed by the single `flusher.Flush()`: for each chunk the tee
appends it to the capture buffer before `io.Copy` hands it to the
client, and one flush happens after the copy loop ends. -/
def streamCopyEvents : List ByteStr → List StreamEvent
  | [] => [.flush]
  | c :: rest => .append c :: .write c :: streamCopyEvents rest

/-- Bytes the client receives: concatenation of the `write` events. -/
def clientBytesOf (evs : List StreamEvent) : ByteStr :=
  (evs.filterMap (fun e =>
    match e with
    | .write c => some c
    | _ => none)).flatten

/-- Number of explicit flushes in a trace. -/
def flushCount (evs : List StreamEvent) : Nat :=
  (evs.filter (fun e => e == .flush)).length

/-- Result of `handleRegularResponse` when the dispatch succeeded, or
of either handler's error path: what the client sees and the response
records handed to the database. -/
structure RegularOutcome where
  clientStatus : Nat
  clientHeaders : Headers
  clientBody : ByteStr
  stored : List StoredResponse

/-- Result of `handleStreamingResponse`: client status and headers, the
trace of copy-loop events, and the response records stored. -/
structure StreamOutcome where
  clientStatus : Nat
  clientHeaders : Headers
  events : List StreamEvent
  stored : List StoredResponse

/-- The storage decode step shared by both handlers: if a
Content-Encoding header is present, try `decompressBody` and fall back
to the raw bytes on a decode error; otherwise keep the raw bytes. -/
def storageBody (cs : Codecs) (raw : ByteStr) (contentEncoding : String) : ByteStr :=
  if contentEncoding == "" then raw
  else
    match decompressBody cs raw contentEncoding with
    | some d => d
    | none => raw

/-- `handleRegularResponse`: on a dispatch error, store the 502
error-flagged record and answer the client with `http.Error` 502; on
success, mirror status, every header value and the raw body bytes to
the client while storing one record whose body is the
storage-decoded copy and whose headers keep only the first value each.
The binary-artifact file save, console logging and the asynchronous
post-processing and event emission carry no response-record or
client-body data and are elided. -/
def handleRegularResponse (cs : Codecs) (disp : Except String UpstreamResp)
    (requestID : String) (durationMs : Nat) : RegularOutcome :=
  match disp with
  | .error msg =>
    { clientStatus := 502
      clientHeaders := []
      clientBody := strBytes ("Failed to reach provider: " ++ msg ++ "\n")
      stored := [logErrorResponse requestID msg durationMs] }
  | .ok resp =>
    let contentEncoding := headerGet resp.headers "Content-Encoding"
    let decompressedBody := storageBody cs resp.body contentEncoding
    { clientStatus := resp.statusCode
      clientHeaders := resp.headers
      clientBody := resp.body
      stored := [{ requestID := requestID
                   statusCode := resp.statusCode
                   headers := captureHeaders resp.headers
                   body := decompressedBody
                   durationMs := durationMs
                   isError := false
                   errorMessage := "" }] }

/-- The client headers `handleStreamingResponse` sets: Content-Type is
copied (first value only) from upstream, Cache-Control and Connection
are overwritten, every other header keeps all its values. -/
def streamClientHeaders (h : Headers) : Headers :=
  [("Content-Type", [headerGet h "Content-Type"]),
   ("Cache-Control", ["no-cache"]),
   ("Connection", ["keep-alive"])] ++
  h.filter (fun kv =>
    kv.1 != "Content-Type" && kv.1 != "Cache-Control" && kv.1 != "Connection")

/-- `handleStreamingResponse`: on a dispatch error, behave as the
buffered path's error branch; on success, run the tee-copy loop
(`streamCopyEvents`), then store one record whose body is the
storage-decode of the captured concatenation. -/
def handleStreamingResponse (cs : Codecs) (disp : Except String StreamResp)
    (requestID : String) (durationMs : Nat) : StreamOutcome :=
  match disp with
  | .error msg =>
    { clientStatus := 502
      clientHeaders := []
      events := []
      stored := [logErrorResponse requestID msg durationMs] }
  | .ok resp =>
    let buffered := resp.chunks.flatten
    let contentEncoding := headerGet resp.headers "Content-Encoding"
    let storedBody := storageBody cs buffered contentEncoding
    { clientStatus := resp.statusCode
      clientHeaders := streamClientHeaders resp.headers
      events := streamCopyEvents resp.chunks
      stored := [{ requestID := requestID
                   statusCode := resp.statusCode
                   headers := captureHeaders resp.headers
                   body := storedBody
                   durationMs := durationMs
                   isError := false
                   errorMessage := "" }] }

/-- Terminal outcome of `Handle` for one exchange. -/
inductive ExchangeResult where
  | noProvider
  | prepareFailed (msg : String)
  | regular (out : RegularOutcome)
  | streaming (out : StreamOutcome)

/-- Every response record `Handle` stored for the exchange. -/
def storedResponses : ExchangeResult → List StoredResponse
  | .noProvider => []
  | .prepareFailed _ => []
  | .regular o => o.stored
  | .streaming o => o.stored

/-- HTTP status the client receives (`http.Error` uses 400 for the
no-provider and preparation-failure answers). -/
def clientStatusOf : ExchangeResult → Nat
  | .noProvider => 400
  | .prepareFailed _ => 400
  | .regular o => o.clientStatus
  | .streaming o => o.clientStatus

/-- Whether an upstream dispatch was attempted. -/
def dispatchedUpstream : ExchangeResult → Bool
  | .noProvider => false
  | .prepareFailed _ => false
  | .regular _ => true
  | .streaming _ => true

/-- Whether an `Except` dispatch result is the unreachable or timed-out
error case of `client.Do`. -/
def dispatchFailed {α : Type} : Except String α → Bool
  | .error _ => true
  | .ok _ => false

/-- `Handle`: select the provider from the map iteration `enum` (400
and stop if none accepts), log the request (a request record, not a
response record — elided), decide streaming mode, prepare the outbound
request (400 and stop on a preparation error), then run the streaming
or buffered handler on the dispatch result. -/
def handleExchange (cs : Codecs) (enum : List ProviderModel) (req : InboundRequest)
    (dispR : Except String UpstreamResp) (dispS : Except String StreamResp)
    (requestID : String) (durationMs : Nat) : ExchangeResult :=
  match selectProvider enum req.path with
  | none => .noProvider
  | some p =>
    let isStr := isStreamingRequest p req
    match p.prepareRequest req.headers with
    | .error msg => .prepareFailed msg
    | .ok _ =>
      if isStr then
        .streaming (handleStreamingResponse cs dispS requestID durationMs)
      else
        .regular (handleRegularResponse cs dispR requestID durationMs)

/-- The `override.ApprovalDecision` values. -/
inductive ApprovalDecision where
  | approved
  | error400
  | error500
  | contentSensitive
  | timeout
deriving DecidableEq, Repr

/-- The override `Manager`: the approval toggle and the pending-ticket
table.  A ticket's buffered capacity-1 decision channel is its slot:
`none` while empty, `some d` once a decision has been delivered and not
yet consumed. -/
structure Manager where
  enabled : Bool
  pendingRequests : List (String × Option ApprovalDecision)

/-- The singleton manager's initial state. -/
def initialManager : Manager :=
  { enabled := false, pendingRequests := [] }

/-- Keys of the pending table. -/
def ticketKeys (m : Manager) : List String :=
  m.pendingRequests.map Prod.fst

/-- Look up the ticket slot for an exchange identifier. -/
def findTicket (m : Manager) (id : String) : Option (Option ApprovalDecision) :=
  assocFind id m.pendingRequests

/-- Replace the slot of every ticket entry at `id`, leaving the key
structure unchanged (a decision lands in the existing ticket's
channel; the table has at most one entry per key). -/
def setTicket (id : String) (slot : Option ApprovalDecision) :
    List (String × Option ApprovalDecision) → List (String × Option ApprovalDecision)
  | [] => []
  | (k', v) :: rest =>
    if k' == id then (k', slot) :: setTicket id slot rest
    else (k', v) :: setTicket id slot rest

/-- Remove the ticket at `id` (Go `delete(m.pendingRequests, requestID)`). -/
def deleteTicket (id : String) :
    List (String × Option ApprovalDecision) → List (String × Option ApprovalDecision)
  | [] => []
  | (k', v) :: rest =>
    if k' == id then deleteTicket id rest else (k', v) :: deleteTicket id rest

/-- The registration half of `WaitForApproval`: create a ticket with an
empty decision slot under the lock (Go map assignment, so an existing
ticket for the same identifier would be replaced). -/
def waitRegister (m : Manager) (id : String) : Manager :=
  { m with pendingRequests := mapInsert id none m.pendingRequests }

/-- `Approve`: look up the ticket; absent means not pending; a filled
slot means the non-blocking send hits a full channel and takes the
`default` branch.  Only an empty slot accepts the decision.  The call
never waits: it is a total function of the state. -/
def managerApprove (m : Manager) (id : String) : Manager × Bool :=
  match findTicket m id with
  | none => (m, false)
  | some (some _) => (m, false)
  | some none =>
    ({ m with pendingRequests := setTicket id (some .approved) m.pendingRequests }, true)

/-- The three actions `Override` accepts. -/
def isOverrideAction : ApprovalDecision → Bool
  | .error400 => true
  | .error500 => true
  | .contentSensitive => true
  | _ => false

/-- `Override`: reject any action other than error_400, error_500 or
content_sensitive up front, then behave like `Approve` with the chosen
action. -/
def managerOverride (m : Manager) (id : String) (action : ApprovalDecision) : Manager × Bool :=
  if !isOverrideAction action then (m, false)
  else
    match findTicket m id with
    | none => (m, false)
    | some (some _) => (m, false)
    | some none =>
      ({ m with pendingRequests := setTicket id (some action) m.pendingRequests }, true)

/-- The decision arm of `WaitForApproval`'s select: ready only when the
ticket exists and its channel holds a decision; consuming it deletes
the ticket and returns the decision. -/
def waitRecv (m : Manager) (id : String) : Option (Manager × ApprovalDecision) :=
  match findTicket m id with
  | some (some d) => some ({ m with pendingRequests := deleteTicket id m.pendingRequests }, d)
  | _ => none

/-- The timeout arm of `WaitForApproval`'s select: the deadline fires,
the ticket is deleted, and the timed-out decision is returned. -/
def waitTimeout (m : Manager) (id : String) : Manager × ApprovalDecision :=
  ({ m with pendingRequests := deleteTicket id m.pendingRequests }, .timeout)

/-- States of the manager reachable from the initial state through its
public operations. -/
inductive ReachableManager : Manager → Prop where
  | init : ReachableManager initialManager
  | enable {m} : ReachableManager m → ReachableManager { m with enabled := true }
  | disable {m} : ReachableManager m → ReachableManager { m with enabled := false }
  | register {m} (id : String) : ReachableManager m → ReachableManager (waitRegister m id)
  | approve {m} (id : String) : ReachableManager m → ReachableManager (managerApprove m id).1
  | override {m} (id : String) (a : ApprovalDecision) :
      ReachableManager m → ReachableManager (managerOverride m id a).1
  | recv {m m' : Manager} {id : String} {d : ApprovalDecision} :
      ReachableManager m → waitRecv m id = some (m', d) → ReachableManager m'
  | timeoutFires {m} (id : String) : ReachableManager m → ReachableManager (waitTimeout m id).1

/-- An SSE event (`api.EventMessage`); the payload is opaque to the
broadcaster. -/
structure EventMessage where
  kind : String
  payload : String
deriving DecidableEq, Repr

/-- A connected observer (`api.SSEClient`): its identifier, the queued
contents of its buffered `send` channel, and that channel's capacity
(10 at `Subscribe`). -/
structure SSEClient where
  id : String
  send : List EventMessage
  sendCap : Nat
deriving DecidableEq, Repr

/-- The broadcaster's observer registry, owned by its run loop. -/
structure Broadcaster where
  clients : List (String × SSEClient)
deriving DecidableEq, Repr

/-- The non-blocking send in the run loop's broadcast arm: deliver when
the mailbox has free space, silently drop the event for this observer
when it is full. -/
def trySend (c : SSEClient) (e : EventMessage) : SSEClient :=
  if c.send.length < c.sendCap then { c with send := c.send ++ [e] } else c

/-- The broadcast arm of `run`: fan one published event out to every
registered observer with the non-blocking send; the registry itself is
not modified (keys and capacities unchanged). -/
def runBroadcast (b : Broadcaster) (e : EventMessage) : Broadcaster :=
  { b with clients := b.clients.map (fun kv => (kv.1, trySend kv.2 e)) }

/-- The subscribe arm of `run`. -/
def runSubscribe (b : Broadcaster) (c : SSEClient) : Broadcaster :=
  { b with clients := mapInsert c.id c b.clients }

/-- The unsubscribe arm of `run`: remove the observer when present
(closing its mailbox is the removal here). -/
def runUnsubscribe (b : Broadcaster) (c : SSEClient) : Broadcaster :=
  { b with clients := b.clients.filter (fun kv => kv.1 != c.id) }

/-- Split a character list on the path separator. -/
def splitSegs : List Char → List Char → List String
  | [], cur => [String.mk cur.reverse]
  | c :: rest, cur =>
    if c == '/' then String.mk cur.reverse :: splitSegs rest []
    else splitSegs rest (c :: cur)

/-- The element loop of Go `filepath.Clean` on a slash-separated path:
`acc` is the output stack (reversed).  Empty and `.` elements are
dropped; `..` pops a non-`..` element, is dropped at the root of a
rooted path, and is kept otherwise; any other element is pushed. -/
def cleanSegsAux (rooted : Bool) : List String → List String → List String
  | [], acc => acc
  | s :: rest, acc =>
    if s == "" || s == "." then cleanSegsAux rooted rest acc
    else if s == ".." then
      match acc with
      | [] => if rooted then cleanSegsAux rooted rest [] else cleanSegsAux rooted rest [".."]
      | t :: ts =>
        if t == ".." then cleanSegsAux rooted rest (".." :: t :: ts)
        else cleanSegsAux rooted rest ts
    else cleanSegsAux rooted rest (s :: acc)

/-- Join path elements with the separator. -/
def joinSegs : List String → String
  | [] => ""
  | [s] => s
  | s :: t :: rest => s ++ "/" ++ joinSegs (t :: rest)

/-- Go `filepath.Clean` for slash-separated (Unix) paths. -/
def goClean (p : String) : String :=
  if p == "" then "."
  else
    let cs := p.toList
    let rooted : Bool := listStarts ['/'] cs
    let segs := splitSegs cs []
    let out := (cleanSegsAux rooted segs []).reverse
    let joined := joinSegs out
    if rooted then (if joined == "" then "/" else "/" ++ joined)
    else (if joined == "" then "." else joined)

/-- Go `filepath.Join` on two elements: drop empty elements, join the
rest with the separator, and Clean the result. -/
def goJoin (a b : String) : String :=
  if a == "" && b == "" then ""
  else if a == "" then goClean b
  else if b == "" then goClean a
  else goClean (a ++ "/" ++ b)

/-- `storage.FileStorage.GetFullPath`: resolve a stored relative path
against the storage base path. -/
def getFullPath (basePath relativePath : String) : String :=
  goJoin basePath relativePath

/-- The path validation in `api.Handler.GetFile`: the wildcard path must
be non-empty, equal to its own Clean, and must not begin with a slash;
otherwise the request is rejected with a 400 before any file access. -/
def getFileAccepts (filePath : String) : Bool :=
  !(filePath == "") && goClean filePath == filePath && !(listStarts ['/'] filePath.toList)

/-- A path lies within a base directory: it is the base itself or an
extension of it below the separator. -/
def withinBase (base p : String) : Bool :=
  p == base || listStarts (base ++ "/").toList p.toList

example : goClean "a/../b" = "b" := by decide
example : goClean "a//b/./c" = "a/b/c" := by decide
example : goClean "/a/../../b" = "/b" := by decide
example : goClean "../secret" = "../secret" := by decide
example : goClean "a/" = "a" := by decide
example : goClean "/" = "/" := by decide
example : goJoin "/data/files" "openai/x.png" = "/data/files/openai/x.png" := by decide
example : goJoin "/data/files" "../secret" = "/data/secret" := by decide

theorem clientBytesOf_streamCopyEvents (chunks : List ByteStr) :
    clientBytesOf (streamCopyEvents chunks) = chunks.flatten := by
  induction chunks with
  | nil => rfl
  | cons c rest ih =>
    simp only [streamCopyEvents, clientBytesOf, List.filterMap_cons] at ih ⊢
    simpa [List.flatten_cons] using ih

/-- C1.  For every exchange in which an upstream response is received,
on both the buffered and the streaming path, the body bytes written to
the client are exactly the bytes read from the upstream body — the raw
`respBody` on the buffered path, the concatenation of the streamed
chunks on the streaming path — independent of the codecs and of any
Content-Encoding header, while the record persisted for storage carries
the (possibly different) storage-decoded copy. -/
theorem c1_client_gets_upstream_bytes (cs : Codecs) (resp : UpstreamResp) (sresp : StreamResp)
    (rid : String) (dur : Nat) :
    (handleRegularResponse cs (.ok resp) rid dur).clientBody = resp.body ∧
    clientBytesOf (handleStreamingResponse cs (.ok sresp) rid dur).events = sresp.chunks.flatten ∧
    (handleRegularResponse cs (.ok resp) rid dur).stored.map (fun r => r.body) =
      [storageBody cs resp.body (headerGet resp.headers "Content-Encoding")] ∧
    (handleStreamingResponse cs (.ok sresp) rid dur).stored.map (fun r => r.body) =
      [storageBody cs sresp.chunks.flatten (headerGet sresp.headers "Content-Encoding")] := by
  refine ⟨rfl, ?_, rfl, rfl⟩
  exact clientBytesOf_streamCopyEvents sresp.chunks

/-- C3.  Divergence witness for the streaming copy loop: with upstream
chunks "a" and "b", the code's event order is append-to-capture before
write-to-client for each chunk, and `Flush` runs exactly once, after
`io.Copy` has consumed the whole stream — not once per chunk, and not
before the capture append. -/
theorem c3_flush_order_divergence :
    (handleStreamingResponse noCodecs (.ok ⟨200, [], [[97], [98]]⟩) "r1" 0).events =
      [.append [97], .write [97], .append [98], .write [98], .flush] ∧
    flushCount (handleStreamingResponse noCodecs (.ok ⟨200, [], [[97], [98]]⟩) "r1" 0).events = 1 := by
  exact ⟨rfl, rfl⟩

/-- C8.  Failing input for the `GetFile` path validation: the relative
path `../secret` is equal to its own `filepath.Clean`, does not begin
with a slash, and is therefore accepted, yet `GetFullPath` resolves it
to `/data/secret`, outside the storage base `/data/files`. -/
theorem c8_traversal_escapes_base :
    getFileAccepts "../secret" = true ∧
    getFullPath "/data/files" "../secret" = "/data/secret" ∧
    withinBase "/data/files" "/data/secret" = false := by
  refine ⟨by decide, by decide, by decide⟩

/-- An inbound request that the OpenAI provider accepts but whose
preparation fails: no Authorization header. -/
def reqNoAuth : InboundRequest :=
  { path := "/openai/v1/embeddings"
    method := "POST"
    headers := []
    body := []
    queryStream := false
    bodyStream := false }

/-- C2, counterexample.  An exchange that passes provider resolution
(the OpenAI provider accepts the path) but fails request preparation
completes with zero response records, not exactly one: `Handle` answers
400 and returns before either response handler runs. -/
theorem c2_counterexample_prepare_failure :
    (selectProvider [openAIModel] reqNoAuth.path).isSome = true ∧
    handleExchange noCodecs [openAIModel] reqNoAuth
      (.ok ⟨200, [], []⟩) (.ok ⟨200, [], []⟩) "r1" 0 =
        .prepareFailed "missing Authorization header" ∧
    storedResponses (handleExchange noCodecs [openAIModel] reqNoAuth
      (.ok ⟨200, [], []⟩) (.ok ⟨200, [], []⟩) "r1" 0) = [] := by
  exact ⟨rfl, rfl, rfl⟩

/-- C2, amended.  For every exchange that passes provider resolution
and whose request preparation succeeds, exactly one response record is
stored by completion, on upstream success and upstream failure alike,
and its is_error flag is true iff the dispatch to the upstream failed
(unreachable or timed out); an exchange whose preparation fails is
answered 400 with no response record stored and no upstream dispatch. -/
theorem c2_one_record_per_dispatched_exchange :
    (∀ (cs : Codecs) (enum : List ProviderModel) (req : InboundRequest)
       (dispR : Except String UpstreamResp) (dispS : Except String StreamResp)
       (rid : String) (dur : Nat) (p : ProviderModel) (h' : Headers),
       selectProvider enum req.path = some p →
       p.prepareRequest req.headers = Except.ok h' →
       ∃ r, storedResponses (handleExchange cs enum req dispR dispS rid dur) = [r] ∧
         r.isError = (if isStreamingRequest p req then dispatchFailed dispS
                      else dispatchFailed dispR)) ∧
    (∀ (cs : Codecs) (enum : List ProviderModel) (req : InboundRequest)
       (dispR : Except String UpstreamResp) (dispS : Except String StreamResp)
       (rid : String) (dur : Nat) (p : ProviderModel) (msg : String),
       selectProvider enum req.path = some p →
       p.prepareRequest req.headers = Except.error msg →
       storedResponses (handleExchange cs enum req dispR dispS rid dur) = [] ∧
       clientStatusOf (handleExchange cs enum req dispR dispS rid dur) = 400 ∧
       dispatchedUpstream (handleExchange cs enum req dispR dispS rid dur) = false) := by
  constructor
  · intro cs enum req dispR dispS rid dur p h' hsel hprep
    unfold handleExchange
    rw [hsel]
    simp only [hprep]
    by_cases hstr : isStreamingRequest p req
    · rw [if_pos hstr, if_pos hstr]
      cases dispS with
      | error msg => exact ⟨_, rfl, rfl⟩
      | ok sresp => exact ⟨_, rfl, rfl⟩
    · rw [if_neg hstr, if_neg hstr]
      cases dispR with
      | error msg => exact ⟨_, rfl, rfl⟩
      | ok resp => exact ⟨_, rfl, rfl⟩
  · intro cs enum req dispR dispS rid dur p msg hsel hprep
    unfold handleExchange
    rw [hsel]
    simp only [hprep]
    exact ⟨rfl, rfl, rfl⟩

/-- An inbound request the OpenAI provider accepts and prepares
successfully. -/
def reqWithAuth : InboundRequest :=
  { path := "/openai/v1/embeddings"
    method := "POST"
    headers := [("Authorization", ["Bearer k"])]
    body := []
    queryStream := false
    bodyStream := false }

/-- C2, witness.  Instantiating the amended theorem: a concrete
exchange whose upstream dispatch fails stores exactly one record, and
that record is error-flagged. -/
theorem c2_witness :
    ∃ r, storedResponses (handleExchange noCodecs [openAIModel] reqWithAuth
      (.error "connection refused") (.ok ⟨200, [], []⟩) "r1" 0) = [r] ∧
      r.isError = (if isStreamingRequest openAIModel reqWithAuth
                   then dispatchFailed (Except.ok (⟨200, [], []⟩ : StreamResp))
                   else dispatchFailed (Except.error (α := UpstreamResp) "connection refused")) := by
  exact c2_one_record_per_dispatched_exchange.1 noCodecs [openAIModel] reqWithAuth
    (.error "connection refused") (.ok ⟨200, [], []⟩) "r1" 0 openAIModel
    (delHopByHop reqWithAuth.headers) rfl rfl

/-- A provider registered first under the name "dup", accepting only
the path "/a". -/
def dupProvA : ProviderModel :=
  { name := "dup"
    shouldProxy := fun p => p == "/a"
    getProxyURL := fun p => p
    prepareRequest := fun h => Except.ok h
    isStreamingEndpoint := fun _ => false }

/-- A provider registered second under the same name "dup", accepting
only the path "/b". -/
def dupProvB : ProviderModel :=
  { name := "dup"
    shouldProxy := fun p => p == "/b"
    getProxyURL := fun p => p
    prepareRequest := fun h => Except.ok h
    isStreamingEndpoint := fun _ => false }

/-- A request for the path "/a". -/
def reqPathA : InboundRequest :=
  { path := "/a", method := "GET", headers := [], body := [],
    queryStream := false, bodyStream := false }

/-- C6, counterexample.  `New` keys its provider table by name, so of
two registered providers named "dup" only the second survives, and
`Handle` ranges over that table rather than the registration list: for
the path "/a" the first registered provider accepts (registration-order
first match would select it), yet the exchange is answered 400 as
"no provider found". -/
theorem c6_counterexample_not_registration_order :
    firstRegistrationMatch [dupProvA, dupProvB] "/a" = some dupProvA ∧
    registryValues (buildProviderMap [dupProvA, dupProvB]) = [dupProvB] ∧
    handleExchange noCodecs (registryValues (buildProviderMap [dupProvA, dupProvB])) reqPathA
      (.ok ⟨200, [], []⟩) (.ok ⟨200, [], []⟩) "r1" 0 = .noProvider ∧
    clientStatusOf (handleExchange noCodecs (registryValues (buildProviderMap [dupProvA, dupProvB]))
      reqPathA (.ok ⟨200, [], []⟩) (.ok ⟨200, [], []⟩) "r1" 0) = 400 := by
  exact ⟨rfl, rfl, rfl, rfl⟩

/-- C6, amended.  `Handle` consults the name-keyed provider table built
by `New` (a later registration replaces an earlier one with the same
name) in the unspecified order of Go map iteration; the exchange is
handled by the first provider in that iteration order whose
`ShouldProxy` accepts the path, and when no provider in the table
accepts the path the gateway responds 400 as a client error and stops,
storing no response record and dispatching nothing upstream. -/
theorem c6_first_match_over_registry (ps enum : List ProviderModel) (path : String)
    (hperm : enum.Perm (registryValues (buildProviderMap ps))) :
    (selectProvider enum path = none ↔
       ∀ p ∈ registryValues (buildProviderMap ps), ¬ p.shouldProxy path = true) ∧
    (∀ p, selectProvider enum path = some p →
       p ∈ registryValues (buildProviderMap ps) ∧ p.shouldProxy path = true) ∧
    (∀ l1 p l2, enum = l1 ++ p :: l2 → (∀ q ∈ l1, ¬ q.shouldProxy path = true) →
       p.shouldProxy path = true → selectProvider enum path = some p) ∧
    (∀ (cs : Codecs) (req : InboundRequest) (dispR : Except String UpstreamResp)
       (dispS : Except String StreamResp) (rid : String) (dur : Nat),
       selectProvider enum req.path = none →
       handleExchange cs enum req dispR dispS rid dur = .noProvider ∧
       clientStatusOf (handleExchange cs enum req dispR dispS rid dur) = 400 ∧
       storedResponses (handleExchange cs enum req dispR dispS rid dur) = [] ∧
       dispatchedUpstream (handleExchange cs enum req dispR dispS rid dur) = false) := by
  refine ⟨?_, ?_, ?_, ?_⟩
  · unfold selectProvider
    rw [List.find?_eq_none]
    constructor
    · intro h p hp
      exact h p (hperm.mem_iff.mpr hp)
    · intro h p hp
      exact h p (hperm.mem_iff.mp hp)
  · intro p hfind
    have hf : enum.find? (fun q => q.shouldProxy path) = some p := hfind
    refine ⟨hperm.mem_iff.mp (List.mem_of_find?_eq_some hf), ?_⟩
    simpa using List.find?_some hf
  · intro l1 p l2 henum hrej hacc
    subst henum
    clear hperm
    unfold selectProvider
    induction l1 with
    | nil => exact List.find?_cons_of_pos _ hacc
    | cons q l1' ih =>
      rw [List.cons_append, List.find?_cons_of_neg]
      · exact ih (fun q' hq' => hrej q' (List.mem_cons_of_mem q hq'))
      · exact hrej q (List.mem_cons_self q l1')
  · intro cs req dispR dispS rid dur hnone
    unfold handleExchange
    rw [hnone]
    exact ⟨rfl, rfl, rfl, rfl⟩

/-- A request for a path no registered provider accepts. -/
def reqUnrouted : InboundRequest :=
  { path := "/nope", method := "GET", headers := [], body := [],
    queryStream := false, bodyStream := false }

/-- C6, witness.  Instantiating the amended theorem on the real
registration list (OpenAI then Replicate) and an unrouted path: the
gateway answers 400 and stores nothing. -/
theorem c6_witness :
    handleExchange noCodecs (registryValues (buildProviderMap [openAIModel, replicateModel]))
      reqUnrouted (.ok ⟨200, [], []⟩) (.ok ⟨200, [], []⟩) "r1" 0 = .noProvider ∧
    clientStatusOf (handleExchange noCodecs
      (registryValues (buildProviderMap [openAIModel, replicateModel])) reqUnrouted
      (.ok ⟨200, [], []⟩) (.ok ⟨200, [], []⟩) "r1" 0) = 400 ∧
    storedResponses (handleExchange noCodecs
      (registryValues (buildProviderMap [openAIModel, replicateModel])) reqUnrouted
      (.ok ⟨200, [], []⟩) (.ok ⟨200, [], []⟩) "r1" 0) = [] ∧
    dispatchedUpstream (handleExchange noCodecs
      (registryValues (buildProviderMap [openAIModel, replicateModel])) reqUnrouted
      (.ok ⟨200, [], []⟩) (.ok ⟨200, [], []⟩) "r1" 0) = false := by
  exact (c6_first_match_over_registry [openAIModel, replicateModel]
    (registryValues (buildProviderMap [openAIModel, replicateModel])) reqUnrouted.path
    (List.Perm.refl _)).2.2.2 noCodecs reqUnrouted
    (.ok ⟨200, [], []⟩) (.ok ⟨200, [], []⟩) "r1" 0 rfl

/-- C7.  `decompressBody` decodes gzip and Brotli for the storage copy:
whenever the decoders satisfy the round-trip contract of the external
compression libraries, a compressed body decodes back to the original
bytes; the empty, identity, deflate, compress, and any other encoding
value all return the input bytes unchanged without error; and on the
buffered path a gzip decode failure makes the exchange store the raw
still-compressed bytes instead of failing. -/
theorem c7_decompress_roundtrip_and_fallback :
    (∀ (cs : Codecs) (gzipComp : ByteStr → ByteStr) (b : ByteStr),
       (∀ x, cs.gzipDecode (gzipComp x) = some x) →
       decompressBody cs (gzipComp b) "gzip" = some b) ∧
    (∀ (cs : Codecs) (brComp : ByteStr → ByteStr) (b : ByteStr),
       (∀ x, cs.brotliDecode (brComp x) = some x) →
       decompressBody cs (brComp b) "br" = some b) ∧
    (∀ (cs : Codecs) (body : ByteStr),
       decompressBody cs body "" = some body ∧
       decompressBody cs body "identity" = some body ∧
       decompressBody cs body "deflate" = some body ∧
       decompressBody cs body "compress" = some body) ∧
    (∀ (cs : Codecs) (body : ByteStr) (enc : String),
       goToLower (goTrimSpace enc) ≠ "gzip" → goToLower (goTrimSpace enc) ≠ "br" →
       decompressBody cs body enc = some body) ∧
    (∀ (cs : Codecs) (resp : UpstreamResp) (rid : String) (dur : Nat),
       headerGet resp.headers "Content-Encoding" = "gzip" →
       cs.gzipDecode resp.body = none →
       (handleRegularResponse cs (.ok resp) rid dur).stored.map (fun r => r.body) = [resp.body]) := by
  refine ⟨?_, ?_, ?_, ?_, ?_⟩
  · intro cs gzipComp b h
    unfold decompressBody
    exact h b
  · intro cs brComp b h
    unfold decompressBody
    exact h b
  · intro cs body
    exact ⟨rfl, rfl, rfl, rfl⟩
  · intro cs body enc h1 h2
    unfold decompressBody
    split
    · exact absurd (by assumption) h1
    · exact absurd (by assumption) h2
    · rfl
    · rfl
    · rfl
    · rfl
    · rfl
  · intro cs resp rid dur hget hfail
    have hdec : decompressBody cs resp.body "gzip" = none := by
      unfold decompressBody
      exact hfail
    simp only [handleRegularResponse, storageBody, hget, hdec]
    norm_num

/-- Codecs in which the gzip decoder inverts the identity compressor
and the Brotli decoder always fails, used to witness the round-trip
hypotheses at a concrete input. -/
def idGzipCodecs : Codecs :=
  { gzipDecode := fun x => some x, brotliDecode := fun _ => none }

/-- C7, witness.  The round-trip and fallback conclusions at concrete
inputs. -/
theorem c7_witness :
    decompressBody idGzipCodecs [1, 2, 3] "gzip" = some [1, 2, 3] ∧
    decompressBody idGzipCodecs [9] "deflate" = some [9] ∧
    decompressBody noCodecs [7] "x-unknown" = some [7] := by
  refine ⟨?_, ?_, ?_⟩
  · exact c7_decompress_roundtrip_and_fallback.1 idGzipCodecs (fun x => x) [1, 2, 3]
      (fun _ => rfl)
  · exact (c7_decompress_roundtrip_and_fallback.2.2.1 idGzipCodecs [9]).2.2.1
  · exact c7_decompress_roundtrip_and_fallback.2.2.2.1 noCodecs [7] "x-unknown"
      (by decide) (by decide)

theorem assocFind_setTicket (l : List (String × Option ApprovalDecision)) (id : String)
    (slot w : Option ApprovalDecision) (h : assocFind id l = some w) :
    assocFind id (setTicket id slot l) = some slot := by
  induction l with
  | nil => simp [assocFind] at h
  | cons kv rest ih =>
    obtain ⟨k', v⟩ := kv
    by_cases hk : (k' == id) = true
    · simp only [setTicket, hk, if_true, assocFind]
    · simp only [assocFind, hk, if_false, Bool.false_eq_true] at h
      simp only [setTicket, hk, if_false, Bool.false_eq_true, assocFind]
      exact ih h

theorem assocFind_deleteTicket (l : List (String × Option ApprovalDecision)) (id : String) :
    assocFind id (deleteTicket id l) = none := by
  induction l with
  | nil => rfl
  | cons kv rest ih =>
    obtain ⟨k', v⟩ := kv
    by_cases hk : (k' == id) = true
    · simpa only [deleteTicket, hk, if_true] using ih
    · simp only [deleteTicket, hk, if_false, Bool.false_eq_true, assocFind]
      exact ih

theorem managerApprove_absent (m : Manager) (id : String)
    (h : findTicket m id = none) : managerApprove m id = (m, false) := by
  unfold managerApprove
  rw [h]

theorem managerApprove_filled (m : Manager) (id : String) (d : ApprovalDecision)
    (h : findTicket m id = some (some d)) : managerApprove m id = (m, false) := by
  unfold managerApprove
  rw [h]

theorem managerOverride_absent (m : Manager) (id : String) (a : ApprovalDecision)
    (h : findTicket m id = none) : managerOverride m id a = (m, false) := by
  unfold managerOverride
  rw [h]
  cases isOverrideAction a <;> rfl

theorem managerOverride_filled (m : Manager) (id : String) (a d : ApprovalDecision)
    (h : findTicket m id = some (some d)) : managerOverride m id a = (m, false) := by
  unfold managerOverride
  rw [h]
  cases isOverrideAction a <;> rfl

theorem managerApprove_empty_slot (m : Manager) (id : String)
    (h : findTicket m id = some none) :
    managerApprove m id =
      ({ m with pendingRequests := setTicket id (some .approved) m.pendingRequests }, true) := by
  unfold managerApprove
  rw [h]

/-- C4.  Delivering a decision never blocks the deliverer: `Approve`
and `Override` are total functions of the manager state performing a
non-blocking slot write; both return false and leave the state
unchanged when no ticket exists for the identifier or the slot is
already filled; `Override` rejects any action outside error_400,
error_500 and content_sensitive regardless of the ticket state; and
after one decision has been delivered successfully, a second `Approve`
or `Override` for the same identifier is rejected. -/
theorem c4_nonblocking_single_delivery :
    (∀ (m : Manager) (id : String) (a : ApprovalDecision),
       findTicket m id = none →
       managerApprove m id = (m, false) ∧ managerOverride m id a = (m, false)) ∧
    (∀ (m : Manager) (id : String) (a d : ApprovalDecision),
       findTicket m id = some (some d) →
       managerApprove m id = (m, false) ∧ managerOverride m id a = (m, false)) ∧
    (∀ (m : Manager) (id : String) (a : ApprovalDecision),
       isOverrideAction a = false → managerOverride m id a = (m, false)) ∧
    (∀ (m : Manager) (id : String),
       findTicket m id = some none →
       (managerApprove m id).2 = true ∧
       findTicket (managerApprove m id).1 id = some (some .approved) ∧
       (∀ a, managerApprove (managerApprove m id).1 id = ((managerApprove m id).1, false) ∧
             managerOverride (managerApprove m id).1 id a = ((managerApprove m id).1, false))) := by
  refine ⟨?_, ?_, ?_, ?_⟩
  · intro m id a h
    exact ⟨managerApprove_absent m id h, managerOverride_absent m id a h⟩
  · intro m id a d h
    exact ⟨managerApprove_filled m id d h, managerOverride_filled m id a d h⟩
  · intro m id a h
    unfold managerOverride
    rw [h]
    rfl
  · intro m id h
    have happr := managerApprove_empty_slot m id h
    have hfind : findTicket (managerApprove m id).1 id = some (some .approved) := by
      rw [happr]
      exact assocFind_setTicket m.pendingRequests id (some .approved) none h
    refine ⟨by rw [happr], hfind, ?_⟩
    intro a
    exact ⟨managerApprove_filled _ id .approved hfind,
           managerOverride_filled _ id a .approved hfind⟩

/-- C4, witness.  With one freshly registered ticket, the first
`Approve` succeeds and the second `Approve` and an `Override` are
rejected, as is an `Override` whose action is plain approval. -/
theorem c4_witness :
    ((managerApprove (waitRegister initialManager "r1") "r1").2 = true ∧
      findTicket (managerApprove (waitRegister initialManager "r1") "r1").1 "r1" =
        some (some .approved) ∧
      (managerApprove (managerApprove (waitRegister initialManager "r1") "r1").1 "r1" =
         ((managerApprove (waitRegister initialManager "r1") "r1").1, false) ∧
       managerOverride (managerApprove (waitRegister initialManager "r1") "r1").1 "r1" .error400 =
         ((managerApprove (waitRegister initialManager "r1") "r1").1, false))) ∧
    managerOverride (waitRegister initialManager "r1") "r1" .approved =
      (waitRegister initialManager "r1", false) ∧
    managerApprove initialManager "r1" = (initialManager, false) := by
  refine ⟨?_, ?_, ?_⟩
  · have h := c4_nonblocking_single_delivery.2.2.2 (waitRegister initialManager "r1") "r1" rfl
    exact ⟨h.1, h.2.1, h.2.2 .error400⟩
  · exact c4_nonblocking_single_delivery.2.2.1 (waitRegister initialManager "r1") "r1"
      .approved rfl
  · exact (c4_nonblocking_single_delivery.1 initialManager "r1" .approved rfl).1

theorem keys_setTicket (id : String) (slot : Option ApprovalDecision)
    (l : List (String × Option ApprovalDecision)) :
    (setTicket id slot l).map Prod.fst = l.map Prod.fst := by
  induction l with
  | nil => rfl
  | cons kv rest ih =>
    obtain ⟨k', v⟩ := kv
    by_cases hk : (k' == id) = true
    · simp only [setTicket, hk, if_true, List.map_cons, ih]
    · simp only [setTicket, hk, if_false, Bool.false_eq_true, List.map_cons, ih]

theorem mem_keys_mapInsert {α : Type} (k x : String) (v : α) (l : List (String × α)) :
    x ∈ (mapInsert k v l).map Prod.fst ↔ x = k ∨ x ∈ l.map Prod.fst := by
  induction l with
  | nil => simp [mapInsert]
  | cons kv rest ih =>
    obtain ⟨k', v'⟩ := kv
    by_cases hk : (k' == k) = true
    · have hkk : k' = k := eq_of_beq hk
      subst hkk
      simp only [mapInsert, hk, if_true, List.map_cons, List.mem_cons]
      tauto
    · simp only [mapInsert, hk, if_false, Bool.false_eq_true, List.map_cons, List.mem_cons, ih]
      tauto

theorem nodup_keys_mapInsert {α : Type} (k : String) (v : α) (l : List (String × α))
    (h : (l.map Prod.fst).Nodup) : ((mapInsert k v l).map Prod.fst).Nodup := by
  induction l with
  | nil => simp [mapInsert]
  | cons kv rest ih =>
    obtain ⟨k', v'⟩ := kv
    simp only [List.map_cons, List.nodup_cons] at h
    obtain ⟨hnotin, hnd⟩ := h
    by_cases hk : (k' == k) = true
    · have hkk : k' = k := eq_of_beq hk
      subst hkk
      simp only [mapInsert, hk, if_true, List.map_cons, List.nodup_cons]
      exact ⟨hnotin, hnd⟩
    · simp only [mapInsert, hk, if_false, Bool.false_eq_true, List.map_cons, List.nodup_cons]
      refine ⟨?_, ih hnd⟩
      intro hmem
      rw [mem_keys_mapInsert] at hmem
      cases hmem with
      | inl he => simp [he] at hk
      | inr hm => exact hnotin hm

theorem mem_keys_deleteTicket (id x : String) (l : List (String × Option ApprovalDecision)) :
    x ∈ (deleteTicket id l).map Prod.fst → x ∈ l.map Prod.fst := by
  induction l with
  | nil => intro h; exact h
  | cons kv rest ih =>
    obtain ⟨k', v⟩ := kv
    by_cases hk : (k' == id) = true
    · simp only [deleteTicket, hk, if_true, List.map_cons, List.mem_cons]
      intro h
      exact Or.inr (ih h)
    · simp only [deleteTicket, hk, if_false, Bool.false_eq_true, List.map_cons, List.mem_cons]
      intro h
      cases h with
      | inl he => exact Or.inl he
      | inr hm => exact Or.inr (ih hm)

theorem nodup_keys_deleteTicket (id : String) (l : List (String × Option ApprovalDecision))
    (h : (l.map Prod.fst).Nodup) : ((deleteTicket id l).map Prod.fst).Nodup := by
  induction l with
  | nil => exact h
  | cons kv rest ih =>
    obtain ⟨k', v⟩ := kv
    simp only [List.map_cons, List.nodup_cons] at h
    obtain ⟨hnotin, hnd⟩ := h
    by_cases hk : (k' == id) = true
    · simpa only [deleteTicket, hk, if_true] using ih hnd
    · simp only [deleteTicket, hk, if_false, Bool.false_eq_true, List.map_cons, List.nodup_cons]
      exact ⟨fun hmem => hnotin (mem_keys_deleteTicket id k' rest hmem), ih hnd⟩

theorem ticketKeys_managerApprove (m : Manager) (id : String) :
    ticketKeys (managerApprove m id).1 = ticketKeys m := by
  unfold managerApprove
  cases h : findTicket m id with
  | none => rfl
  | some slot =>
    cases slot with
    | none => exact keys_setTicket id (some .approved) m.pendingRequests
    | some d => rfl

theorem ticketKeys_managerOverride (m : Manager) (id : String) (a : ApprovalDecision) :
    ticketKeys (managerOverride m id a).1 = ticketKeys m := by
  unfold managerOverride
  cases ha : isOverrideAction a with
  | false => rfl
  | true =>
    simp only [Bool.not_true, Bool.false_eq_true, if_false]
    cases h : findTicket m id with
    | none => rfl
    | some slot =>
      cases slot with
      | none => exact keys_setTicket id (some a) m.pendingRequests
      | some d => rfl

theorem waitRecv_state (m m' : Manager) (id : String) (d : ApprovalDecision)
    (h : waitRecv m id = some (m', d)) :
    m'.pendingRequests = deleteTicket id m.pendingRequests := by
  unfold waitRecv at h
  cases hf : findTicket m id with
  | none => rw [hf] at h; cases h
  | some slot =>
    cases slot with
    | none => rw [hf] at h; cases h
    | some d0 =>
      rw [hf] at h
      simp only [Option.some.injEq, Prod.mk.injEq] at h
      rw [← h.1]

theorem reachable_ticketKeys_nodup (m : Manager) (h : ReachableManager m) :
    (ticketKeys m).Nodup := by
  induction h with
  | init => exact List.nodup_nil
  | enable _ ih => exact ih
  | disable _ ih => exact ih
  | register id _ ih => exact nodup_keys_mapInsert id none _ ih
  | approve id _ ih => rw [ticketKeys_managerApprove]; exact ih
  | override id a _ ih => rw [ticketKeys_managerOverride]; exact ih
  | recv _ heq ih =>
    have hst := waitRecv_state _ _ _ _ heq
    show (_ : Manager).pendingRequests.map Prod.fst |>.Nodup
    rw [hst]
    exact nodup_keys_deleteTicket _ _ ih
  | timeoutFires id _ ih => exact nodup_keys_deleteTicket id _ ih

/-- C5.  The timeout arm of `WaitForApproval` returns the timed-out
decision and removes the ticket; the decision arm removes the ticket as
well, and cannot fire while no decision has been delivered (the slot is
still empty); and in every reachable manager state the pending-ticket
table holds at most one ticket per exchange identifier. -/
theorem c5_wait_timeout_and_uniqueness :
    (∀ (m : Manager) (id : String), (waitTimeout m id).2 = ApprovalDecision.timeout) ∧
    (∀ (m : Manager) (id : String), findTicket (waitTimeout m id).1 id = none) ∧
    (∀ (m m' : Manager) (id : String) (d : ApprovalDecision),
       waitRecv m id = some (m', d) → findTicket m' id = none) ∧
    (∀ (m : Manager) (id : String), findTicket m id = some none → waitRecv m id = none) ∧
    (∀ (m : Manager), ReachableManager m → (ticketKeys m).Nodup) := by
  refine ⟨?_, ?_, ?_, ?_, ?_⟩
  · intro m id
    rfl
  · intro m id
    exact assocFind_deleteTicket m.pendingRequests id
  · intro m m' id d heq
    have hst := waitRecv_state m m' id d heq
    show assocFind id m'.pendingRequests = none
    rw [hst]
    exact assocFind_deleteTicket m.pendingRequests id
  · intro m id h
    unfold waitRecv
    rw [h]
  · intro m h
    exact reachable_ticketKeys_nodup m h

/-- C5, witness.  The timeout path on a registered ticket yields the
timed-out decision and clears the ticket; the decision arm is not ready
while the slot is empty; a reachable two-ticket state has distinct
keys. -/
theorem c5_witness :
    (waitTimeout (waitRegister initialManager "r1") "r1").2 = ApprovalDecision.timeout ∧
    findTicket (waitTimeout (waitRegister initialManager "r1") "r1").1 "r1" = none ∧
    waitRecv (waitRegister initialManager "r1") "r1" = none ∧
    (ticketKeys (waitRegister (waitRegister initialManager "r1") "r2")).Nodup := by
  refine ⟨?_, ?_, ?_, ?_⟩
  · exact c5_wait_timeout_and_uniqueness.1 (waitRegister initialManager "r1") "r1"
  · exact c5_wait_timeout_and_uniqueness.2.1 (waitRegister initialManager "r1") "r1"
  · exact c5_wait_timeout_and_uniqueness.2.2.2.1 (waitRegister initialManager "r1") "r1" rfl
  · exact c5_wait_timeout_and_uniqueness.2.2.2.2 (waitRegister (waitRegister initialManager "r1") "r2")
      (ReachableManager.register "r2" (ReachableManager.register "r1" ReachableManager.init))

theorem assocFind_map_snd {α β : Type} (f : α → β) (l : List (String × α)) (k : String) (c : α)
    (h : assocFind k l = some c) :
    assocFind k (l.map (fun kv => (kv.1, f kv.2))) = some (f c) := by
  induction l with
  | nil => cases h
  | cons kv rest ih =>
    obtain ⟨k', v⟩ := kv
    by_cases hk : (k' == k) = true
    · simp only [assocFind, hk, if_true, Option.some.injEq] at h
      simp only [List.map_cons, assocFind, hk, if_true, h]
    · simp only [assocFind, hk, if_false, Bool.false_eq_true] at h
      simp only [List.map_cons, assocFind, hk, if_false, Bool.false_eq_true]
      exact ih h

/-- C9.  One fan-out of a published event by the run loop delivers the
event to every subscribed observer whose bounded mailbox has free space
(appending it to that mailbox) and leaves a full observer's mailbox
unchanged, dropping the event for that observer alone — the outcome for
each observer depends only on its own mailbox; and a publish with no
subscribed observers returns without blocking or error and leaves the
registry unchanged. -/
theorem c9_fanout_best_effort :
    (∀ (b : Broadcaster) (e : EventMessage) (k : String) (c : SSEClient),
       assocFind k b.clients = some c →
       assocFind k (runBroadcast b e).clients =
         some (if c.send.length < c.sendCap then { c with send := c.send ++ [e] } else c)) ∧
    (∀ (b : Broadcaster) (e : EventMessage) (k : String) (c : SSEClient),
       assocFind k b.clients = some c → ¬ c.send.length < c.sendCap →
       assocFind k (runBroadcast b e).clients = some c) ∧
    (∀ (e : EventMessage), runBroadcast { clients := [] } e = { clients := [] }) := by
  refine ⟨?_, ?_, ?_⟩
  · intro b e k c h
    have := assocFind_map_snd (fun cl => trySend cl e) b.clients k c h
    simpa [trySend] using this
  · intro b e k c h hfull
    have := assocFind_map_snd (fun cl => trySend cl e) b.clients k c h
    simpa [trySend, if_neg hfull] using this
  · intro e
    rfl

/-- An observer with a full capacity-one mailbox. -/
def fullObserver : SSEClient :=
  { id := "a", send := [{ kind := "request_created", payload := "p0" }], sendCap := 1 }

/-- An observer with free mailbox space. -/
def freeObserver : SSEClient :=
  { id := "b", send := [], sendCap := 10 }

/-- A two-observer registry. -/
def twoObserverState : Broadcaster :=
  { clients := [("a", fullObserver), ("b", freeObserver)] }

/-- The published event of the witness. -/
def witnessEvent : EventMessage :=
  { kind := "response_created", payload := "p1" }

/-- C9, witness.  Fanning the event out over the two-observer registry
leaves the full observer untouched and appends to the free one. -/
theorem c9_witness :
    assocFind "a" (runBroadcast twoObserverState witnessEvent).clients = some fullObserver ∧
    assocFind "b" (runBroadcast twoObserverState witnessEvent).clients =
      some { freeObserver with send := freeObserver.send ++ [witnessEvent] } := by
  constructor
  · exact c9_fanout_best_effort.2.1 twoObserverState witnessEvent "a" fullObserver rfl
      (by decide)
  · have := c9_fanout_best_effort.1 twoObserverState witnessEvent "b" freeObserver rfl
    simpa using this

theorem assocFind_captureHeaders (h : Headers) (k v1 : String) (vs : List String)
    (hh : assocFind k h = some (v1 :: vs)) :
    assocFind k (captureHeaders h) = some v1 := by
  induction h with
  | nil => cases hh
  | cons kv rest ih =>
    obtain ⟨k', values⟩ := kv
    by_cases hk : (k' == k) = true
    · simp only [assocFind, hk, if_true, Option.some.injEq] at hh
      subst hh
      simp only [captureHeaders, List.filterMap_cons, assocFind, hk, if_true]
    · simp only [assocFind, hk, if_false, Bool.false_eq_true] at hh
      cases values with
      | nil =>
        simpa only [captureHeaders, List.filterMap_cons] using ih hh
      | cons v vt =>
        simp only [captureHeaders, List.filterMap_cons, assocFind, hk, if_false,
          Bool.false_eq_true]
        exact ih hh

theorem assocFind_filter_keep {α : Type} (l : List (String × α)) (q : String × α → Bool)
    (k : String) (hq : ∀ v, q (k, v) = true) :
    assocFind k (l.filter q) = assocFind k l := by
  induction l with
  | nil => rfl
  | cons kv rest ih =>
    obtain ⟨k', v⟩ := kv
    by_cases hk : (k' == k) = true
    · have hkk : k' = k := eq_of_beq hk
      subst hkk
      simp only [List.filter_cons, hq v, if_true, assocFind, hk, if_true]
    · cases hqv : q (k', v) with
      | true =>
        simp only [List.filter_cons, hqv, if_true, assocFind, hk, if_false,
          Bool.false_eq_true]
        exact ih
      | false =>
        simp only [List.filter_cons, hqv, Bool.false_eq_true, if_false, assocFind, hk]
        exact ih

theorem assocFind_headerDel (h : Headers) (k n : String) (hk : k ≠ n) :
    assocFind k (headerDel h n) = assocFind k h := by
  unfold headerDel
  exact assocFind_filter_keep h _ k (fun v => bne_iff_ne.mpr hk)

theorem assocFind_foldl_del (names : List String) (h : Headers) (k : String)
    (hk : k ∉ names) :
    assocFind k (names.foldl headerDel h) = assocFind k h := by
  induction names generalizing h with
  | nil => rfl
  | cons n rest ih =>
    have hkn : k ≠ n := fun he => hk (he ▸ List.mem_cons_self n rest)
    rw [List.foldl_cons, ih (headerDel h n) (fun hm => hk (List.mem_cons_of_mem n hm)),
      assocFind_headerDel h k n hkn]

/-- C10, counterexample.  The claim that the outbound upstream request
and the streamed client mirror retain every header value fails: the
OpenAI `PrepareRequest` deletes the repeated hop-by-hop Connection
header wholesale from the outbound request, and the streaming mirror
keeps only the first upstream Content-Type value. -/
theorem c10_counterexample_forward_not_value_complete :
    openAIModel.prepareRequest [("Authorization", ["Bearer k"]), ("Connection", ["a", "b"])] =
      Except.ok [("Authorization", ["Bearer k"])] ∧
    assocFind "Content-Type" (streamClientHeaders [("Content-Type", ["a", "b"])]) =
      some ["a"] := by
  exact ⟨rfl, rfl⟩

/-- C10, amended.  The persisted captures keep only `values[0]` of each
multi-valued header; the buffered-path client mirror retains every
header value; the streaming mirror retains every value of all headers
except Content-Type, Cache-Control and Connection (which it rewrites);
and the outbound upstream request retains every value of all headers
except the hop-by-hop set `PrepareRequest` deletes — so any repeated
header that is forwarded is stored lossily. -/
theorem c10_stored_headers_first_value_only :
    (∀ (h : Headers) (k v1 : String) (vs : List String),
       assocFind k h = some (v1 :: vs) → assocFind k (captureHeaders h) = some v1) ∧
    (∀ (cs : Codecs) (resp : UpstreamResp) (rid : String) (dur : Nat),
       (handleRegularResponse cs (.ok resp) rid dur).clientHeaders = resp.headers ∧
       (handleRegularResponse cs (.ok resp) rid dur).stored.map (fun r => r.headers) =
         [captureHeaders resp.headers]) ∧
    (∀ (cs : Codecs) (sresp : StreamResp) (rid : String) (dur : Nat),
       (handleStreamingResponse cs (.ok sresp) rid dur).stored.map (fun r => r.headers) =
         [captureHeaders sresp.headers]) ∧
    (∀ (h : Headers) (k : String),
       k ≠ "Content-Type" → k ≠ "Cache-Control" → k ≠ "Connection" →
       assocFind k (streamClientHeaders h) = assocFind k h) ∧
    (∀ (h : Headers) (k : String), k ∉ hopByHopHeaders →
       assocFind k (delHopByHop h) = assocFind k h) := by
  refine ⟨assocFind_captureHeaders, fun cs resp rid dur => ⟨rfl, rfl⟩,
    fun cs sresp rid dur => rfl, ?_, ?_⟩
  · intro h k h1 h2 h3
    unfold streamClientHeaders
    simp only [List.cons_append, List.nil_append, assocFind,
      beq_eq_false_iff_ne.mpr (Ne.symm h1), beq_eq_false_iff_ne.mpr (Ne.symm h2),
      beq_eq_false_iff_ne.mpr (Ne.symm h3), Bool.false_eq_true, if_false]
    exact assocFind_filter_keep h _ k (fun v => by
      simp [bne_iff_ne.mpr h1, bne_iff_ne.mpr h2, bne_iff_ne.mpr h3])
  · intro h k hk
    unfold delHopByHop
    exact assocFind_foldl_del hopByHopHeaders h k hk

/-- C10, witness.  A repeated header X-Many is captured as its first
value only, while the buffered mirror and the prepared outbound request
keep both values. -/
theorem c10_witness :
    assocFind "X-Many" (captureHeaders [("X-Many", ["v1", "v2"])]) = some "v1" ∧
    (handleRegularResponse noCodecs (.ok ⟨200, [("X-Many", ["v1", "v2"])], []⟩) "r1" 0).clientHeaders =
      [("X-Many", ["v1", "v2"])] ∧
    assocFind "X-Many" (delHopByHop [("X-Many", ["v1", "v2"])]) = some ["v1", "v2"] := by
  refine ⟨?_, ?_, ?_⟩
  · exact c10_stored_headers_first_value_only.1 [("X-Many", ["v1", "v2"])] "X-Many" "v1"
      ["v2"] rfl
  · exact (c10_stored_headers_first_value_only.2.1 noCodecs
      ⟨200, [("X-Many", ["v1", "v2"])], []⟩ "r1" 0).1
  · exact (c10_stored_headers_first_value_only.2.2.2.2 [("X-Many", ["v1", "v2"])] "X-Many"
      (by decide)).trans rfl
